import Mathlib

/-!
Verification of the CHANfiG C extension core (src/chanfig/_cext.c).

This file gives a shallow embedding of the C extension's data model and
operations: the placeholder scanner `find_placeholders_impl`, the relative
reference adjustment `adjust_placeholders`, the graph builder
`collect_placeholders`, the interpolation resolver `FlatDictCore_interpolate`
with `substitute_value`, the structural algebra `deep_merge`,
`FlatDictCore_intersect` and `FlatDictCore_difference`, and the
annotation-aware `FlatDictCore_set_item`.

Python objects are modelled by the inductive `PyObj`; CPython's heap of
Variable cells is modelled by an explicit store (a list of cell contents)
so that in-place cell mutation and cell identity are expressible.
Machinery that the C code imports from Python modules that are not part of
the C source (the Variable class, the annotation helpers, the cycle finder
and the Null sentinel) is modelled from the specification and marked as
such where it is defined.

The scanner and the cycle search are not structurally recursive in the C
source; they take an explicit fuel argument chosen by their wrapper large
enough that fuel can never run out (each wrapper documents the bound),
which keeps every definition reducible by the kernel so that concrete
runs are settled by `rfl`.
-/

/-- A Python value as the C extension sees it: text, an integer scalar,
a sequence (PyList_Check and PyTuple_Check collapse to one case), a dict,
a reference to a Variable cell in the store, or the Null sentinel.
The Variable class and the Null sentinel are not in the C source; they
are modelled from the spec (sections 3 and 4.6): a Variable is an
identity-stable mutable cell, rendered here as an index into an explicit
cell store. -/
inductive PyObj where
  | str : List Char → PyObj
  | intv : Int → PyObj
  | list : List PyObj → PyObj
  | map : List (PyObj × PyObj) → PyObj
  | varRef : Nat → PyObj
  | null : PyObj

/-- An insertion-ordered association list standing for a CPython dict
(iteration order is insertion order, keys are unique). -/
abbrev Dict := List (PyObj × PyObj)

/-- The heap of Variable cells: cell number i holds the i-th entry. -/
abbrev Store := List PyObj

mutual

/-- Structural equality on `PyObj`, modelling
`PyObject_RichCompareBool(..., Py_EQ)` for the values of this model.
Model caveats, both outside the claims' scope: CPython dict equality
ignores insertion order while this one is order-sensitive, and Variable
equality is modelled as cell-number equality. -/
def pyEq : PyObj → PyObj → Bool
  | .str x, .str y => x == y
  | .intv x, .intv y => x == y
  | .list xs, .list ys => pyListEq xs ys
  | .map xs, .map ys => pyDictEq xs ys
  | .varRef i, .varRef j => i == j
  | .null, .null => true
  | _, _ => false

def pyListEq : List PyObj → List PyObj → Bool
  | [], [] => true
  | x :: xs, y :: ys => pyEq x y && pyListEq xs ys
  | _, _ => false

def pyDictEq : List (PyObj × PyObj) → List (PyObj × PyObj) → Bool
  | [], [] => true
  | (k, v) :: xs, (k2, v2) :: ys => pyEq k k2 && pyEq v v2 && pyDictEq xs ys
  | _, _ => false

end

/-- Dict lookup: first entry whose key compares equal (CPython dict
lookup compares keys with Python equality). -/
def dictLookup : Dict → PyObj → Option PyObj
  | [], _ => none
  | (k', v') :: rest, k => if pyEq k' k then some v' else dictLookup rest k

/-- Dict store: replace in place when the key exists (keeping the stored
key object and its position, as CPython does), append otherwise. -/
def dictSet : Dict → PyObj → PyObj → Dict
  | [], k, v => [(k, v)]
  | (k', v') :: rest, k, v =>
    if pyEq k' k then (k', v) :: rest else (k', v') :: dictSet rest k v

/-- PyMapping_Check: true for objects with a subscript slot.  In CPython
this includes str and list as well as dict; Variable is modelled as not
supporting the mapping protocol (the spec, section 3, lists it among the
scalar-like values). -/
def mappingCheck : PyObj → Bool
  | .map _ => true
  | .str _ => true
  | .list _ => true
  | _ => false

/-- The error kinds the embedded operations can raise, mirroring the
exceptions of the C code: `selfReference` and `circularReference` and
`missingReference` are the three ValueError families of the interpolation
path, `keyNotFound` is KeyError, `typeError` is TypeError,
`formatError` and `attributeError` are the failures of Python's
`str.format_map` — `attributeError` also models the AttributeError that
`PyMapping_Items` raises on objects with no items method — and
`invalidKey` is the ValueError raised for the Null sentinel used as a
key. -/
inductive Err where
  | selfReference : List Char → Err
  | circularReference : List (List Char) → Err
  | missingReference : List Char → Err
  | keyNotFound : PyObj → Err
  | typeError : Err
  | formatError : Err
  | attributeError : Err
  | invalidKey : Err

/-- PyObject_GetItem: dict lookup raising KeyError when the key is
missing, TypeError on the other objects of this model (subscripting a
str or list with these keys fails in CPython as well). -/
def pyGetItem (obj k : PyObj) : Except Err PyObj :=
  match obj with
  | .map d =>
    match dictLookup d k with
    | some v => .ok v
    | none => .error (.keyNotFound k)
  | _ => .error .typeError

/-- PyObject_SetItem restricted to dicts (the only place the C code
stores into an arbitrary object it has itself produced). -/
def pySetItem (obj k v : PyObj) : Except Err PyObj :=
  match obj with
  | .map d => .ok (.map (dictSet d k v))
  | _ => .error .typeError

/-! ## The placeholder scanner (find_placeholders_impl) -/

/-- One step-for-step rendering of the scan loop of
`find_placeholders_impl`: a left-to-right pass holding a stack of the
texts accumulated since each still-open placeholder start.  On a dollar
sign followed by an opening brace, a new empty accumulator is pushed and
the brace is skipped; on a closing brace with a non-empty stack the top
accumulator is popped, and the popped text is recorded and recursively
re-scanned only when the pop empties the stack (the C code checks
`top == 0` after the pop); a pop with a remaining outer accumulator
splices the full placeholder text back into that outer accumulator, which
reproduces the index-based substring extraction of the C code.  All other
characters extend the innermost open accumulator; characters outside any
open placeholder are ignored, as is a closing brace with an empty stack.
Fuel decreases by one on every call; with mu the sum of the input length
and of (length + 2) over the stack entries, every call strictly decreases
the pair (mu, input length) lexicographically and mu never grows, so the
wrapper's fuel (length + 1)^2 exceeds the longest possible call chain. -/
def fpScanF : Nat → List Char → List (List Char) → List (List Char)
  | _, [], _ => []
  | 0, _ :: _, _ => []
  | fuel + 1, c :: rest, stack =>
    if c = '$' ∧ rest.head? = some '{' then
      fpScanF fuel rest.tail ([] :: stack)
    else if c = '}' then
      match stack with
      | [] => fpScanF fuel rest []
      | [top] => top :: (fpScanF fuel top [] ++ fpScanF fuel rest [])
      | top :: outer :: st => fpScanF fuel rest ((outer ++ ('$' :: '{' :: (top ++ ['}']))) :: st)
    else
      match stack with
      | [] => fpScanF fuel rest []
      | top :: st => fpScanF fuel rest ((top ++ [c]) :: st)

/-- `find_placeholders(text)`: scan with an initially empty stack.
See `fpScanF` for the fuel bound. -/
def find_placeholders (s : List Char) : List (List Char) :=
  fpScanF ((s.length + 1) * (s.length + 1)) s []

/-- `has_dollar`: whether the text contains a dollar sign
(PyUnicode_FindChar over the whole string). -/
def has_dollar (s : List Char) : Bool := s.any (fun c => c = '$')

/-! ## Relative placeholder adjustment (adjust_placeholders) -/

/-- Index of the last dot in a key, mirroring
`PyUnicode_FindChar(key, '.', 0, len, -1)` (backward search). -/
def lastDotIdx (key : List Char) : Option Nat :=
  match key.reverse.findIdx? (fun c => c = '.') with
  | none => none
  | some j => some (key.length - 1 - j)

/-- The owning key's qualifying text: everything before the last dot, or
the whole key when it has no dot (the `dot_pos == -1` branch). -/
def ownerScope (key : List Char) : List Char :=
  match lastDotIdx key with
  | none => key
  | some p => key.take p

/-- One step of the loop of `adjust_placeholders`: a name starting with a
dot is rewritten by prepending the owning key's qualifying text (the dot
itself is kept, exactly as `PyUnicode_Concat(prefix, name)` keeps it);
afterwards any name, rewritten or not, that equals the owning key raises
the self-reference ValueError. -/
def adjustOne (key name : List Char) : Except Err (List Char) :=
  let adjusted := if name.head? = some '.' then ownerScope key ++ name else name
  if adjusted = key then .error (.selfReference key) else .ok adjusted

/-- `adjust_placeholders(key, placeholders)`: adjust every name in order,
stopping at the first self-reference. -/
def adjust_placeholders (key : List Char) : List (List Char) → Except Err (List (List Char))
  | [] => .ok []
  | n :: rest =>
    match adjustOne key n with
    | .error e => .error e
    | .ok n' =>
      match adjust_placeholders key rest with
      | .error e => .error e
      | .ok rest' => .ok (n' :: rest')

/-! ## The placeholder graph builder (collect_placeholders) -/

/-- The placeholder graph: owning key, in mapping iteration order, to its
ordered list of referenced names after adjustment. -/
abbrev Graph := List (List Char × List (List Char))

def isStrObj : PyObj → Bool
  | .str _ => true
  | _ => false

def isListObj : PyObj → Bool
  | .list _ => true
  | _ => false

/-- The item loop of `collect_placeholders`, in the C code's order of
checks: a non-text key aborts the whole pass with the fallback signal, as
does a list or tuple value or a value supporting the mapping protocol
other than text; a non-text or dollar-free value is skipped; otherwise
the value is scanned, entries with no placeholders are omitted, and the
names are adjusted (which can raise the self-reference error). -/
def collectGo (acc : Graph) : List (PyObj × PyObj) → Except Err (Option Graph)
  | [] => .ok (some acc)
  | (k, v) :: rest =>
    match k with
    | .str ks =>
      if isListObj v then .ok none
      else if mappingCheck v && !isStrObj v then .ok none
      else
        match v with
        | .str vs =>
          if has_dollar vs then
            match find_placeholders vs with
            | [] => collectGo acc rest
            | p :: ps =>
              match adjust_placeholders ks (p :: ps) with
              | .error e => .error e
              | .ok ps' => collectGo (acc ++ [(ks, ps')]) rest
          else collectGo acc rest
        | _ => collectGo acc rest
    | _ => .ok none

/-- `collect_placeholders(mapping)`: `.ok none` is the C return value 0
(not applicable, fall back), `.ok (some g)` is 1 with the built graph.
On every non-dict object of this model `PyMapping_Items` raises
AttributeError (no items method) — reachable from the resolver only for
str and list, the non-dict objects passing `PyMapping_Check`. -/
def collect_placeholders : PyObj → Except Err (Option Graph)
  | .map items => collectGo [] items
  | _ => .error .attributeError

/-! ## Cycle detection -/

def graphLookup (g : Graph) (node : List Char) : Option (List (List Char)) :=
  match g.find? (fun p => p.1 = node) with
  | none => none
  | some p => some p.2

/-- Modelled from the spec: `chanfig.utils.placeholder.find_circular_reference`
is Python code outside the C source.  Spec section 4.3: any graph search
that visits every node, treats names outside the graph's key set as
terminal, and deterministically reports the first discovered cycle as an
ordered path is acceptable.  This is a depth-first search with an
explicit recursion path; the worklist argument holds the siblings still
to try at the current level.  Fuel decreases on every call; a single
call chain alternates descents (the path gains a distinct graph key, so
at most length-of-graph many) and sibling steps (each consumes one entry
of one successor list), so the wrapper's fuel bound
(graph length + 2) * (edge count + 2) can never run out. -/
def dfsCycle (g : Graph) : Nat → List (List Char) → List (List Char) → Option (List (List Char))
  | 0, _, _ => none
  | _ + 1, _, [] => none
  | fuel + 1, path, node :: siblings =>
    match
      (if node ∈ path then some ((path.dropWhile (fun m => m ≠ node)) ++ [node])
       else
         match graphLookup g node with
         | none => none
         | some succs => dfsCycle g fuel (path ++ [node]) succs)
    with
    | some c => some c
    | none => dfsCycle g fuel path siblings

def graphEdgeCount (g : Graph) : Nat := g.foldl (fun a p => a + p.2.length) 0

/-- Modelled from the spec: the cycle finder entry point (section 4.3).
See `dfsCycle` for the fuel bound. -/
def find_circular_reference (g : Graph) : Option (List (List Char)) :=
  dfsCycle g ((g.length + 2) * (graphEdgeCount g + 2)) [] (g.map Prod.fst)

/-! ## Textual substitution (substitute_value) -/

/-- Decimal rendering of an integer, as Python's str(). -/
def intChars (i : Int) : List Char :=
  if i < 0 then '-' :: Nat.toDigits 10 i.natAbs else Nat.toDigits 10 i.natAbs

/-- Python str() of a non-Variable value.  Text and integers are
rendered faithfully; the renderings of containers and of the Null
sentinel are placeholders, outside every claim's scope (no claim formats
a container). -/
def pyStrCore : PyObj → List Char
  | .str s => s
  | .intv i => intChars i
  | .null => "Null".toList
  | .list _ => "<list>".toList
  | .map _ => "<dict>".toList
  | .varRef _ => "<variable>".toList

/-- Python str() including Variable cells.  Modelled from the spec
(section 4.4): substitution inserts the textual form of the referenced
name's resolved value, so a Variable renders as its cell's content
(cells never hold further Variables: the interpolation loop only boxes
values it has just checked not to be Variables). -/
def pyStr (store : Store) : PyObj → List Char
  | .varRef i => pyStrCore (store.getD i .null)
  | v => pyStrCore v

/-- The failures Python's `str.format_map` can raise on the inputs of
this model: a malformed template (ValueError), a field name missing
from the mapping (KeyError), and attribute or index access failing on a
scalar (AttributeError or TypeError). -/
inductive FmtErr where
  | formatError
  | fieldNotFound : PyObj → FmtErr
  | attributeError

/-- The injection of format failures into the common error type. -/
def fmtToErr : FmtErr → Err
  | .formatError => .formatError
  | .fieldNotFound k => .keyNotFound k
  | .attributeError => .attributeError

/-- Resolution of one `str.format_map` replacement field against the
mapping.  Python splits a field name on dots and brackets and applies
attribute or index access to the looked-up value; on the scalar values
of this model any such access fails, modelled as `attributeError`.
Conversion (`!`) and format-spec (`:`) syntax is not modelled and
reported as `formatError`. -/
def fieldLookup (store : Store) (d : Dict) (field : List Char) : Except FmtErr (List Char) :=
  if field.any (fun c => c = '[' ∨ c = '!' ∨ c = ':') then .error .formatError
  else
    let base := field.takeWhile (fun c => c ≠ '.')
    let rest := field.dropWhile (fun c => c ≠ '.')
    match dictLookup d (.str base) with
    | none => .error (.fieldNotFound (.str base))
    | some v => if rest.isEmpty then .ok (pyStr store v) else .error .attributeError

/-- Python's `str.format_map` on the already-dollar-stripped template:
doubled braces are literals, a replacement field runs from an opening
brace to the next closing brace and is resolved by `fieldLookup`, a
stray closing brace and an unterminated field are errors.  The first
argument is `none` outside a field and `some acc` inside one with `acc`
the field text read so far. -/
def fmGo (store : Store) (d : Dict) : Option (List Char) → List Char → Except FmtErr (List Char)
  | none, [] => .ok []
  | none, '{' :: '{' :: rest => (fmGo store d none rest).map (fun r => '{' :: r)
  | none, '}' :: '}' :: rest => (fmGo store d none rest).map (fun r => '}' :: r)
  | none, '{' :: rest => fmGo store d (some []) rest
  | none, '}' :: _ => .error .formatError
  | none, c :: rest => (fmGo store d none rest).map (fun r => c :: r)
  | some _, [] => .error .formatError
  | some acc, '}' :: rest =>
    match fieldLookup store d acc with
    | .error e => .error e
    | .ok txt =>
      match fmGo store d none rest with
      | .error e => .error e
      | .ok r => .ok (txt ++ r)
  | some acc, c :: rest => fmGo store d (some (acc ++ [c])) rest

/-- The format branch of `substitute_value`: strip every dollar sign
(`PyUnicode_Replace(template, "$", "", -1)`), then `format_map` against
the mapping; the result is text. -/
def subFormat (store : Store) (d : Dict) (t : List Char) : Except Err PyObj :=
  match fmGo store d none (t.filter (fun c => c ≠ '$')) with
  | .error e => .error (fmtToErr e)
  | .ok out => .ok (.str out)

/-- `substitute_value(template, mapping, names)`: when the names list
holds exactly one name and the template is at least three characters
long with a dollar sign first, an opening brace second and a closing
brace last, the referenced value itself is returned (the C code checks
only those three positions); otherwise the dollar-stripped template is
formatted. -/
def substitute_value (store : Store) (t : List Char) (d : Dict) (names : List (List Char)) :
    Except Err PyObj :=
  match names with
  | [n] =>
    if t.length ≥ 3 ∧ t.head? = some '$' ∧ t[1]? = some '{' ∧ t.getLast? = some '}' then
      match dictLookup d (.str n) with
      | some v => .ok v
      | none => .error (.keyNotFound (.str n))
    else subFormat store d t
  | _ => subFormat store d t

/-! ## Annotation-aware store (FlatDictCore_set_item) -/

/-- Modelled from the spec: the Variable class lives outside the C
source; its `set` operation validates and mutates the cell in place
(section 3), modelled as overwriting the cell's content in the store
(the validator, for which the spec gives no failing case, is modelled as
accepting). -/
def cellSet (store : Store) (i : Nat) (v : PyObj) : Store := store.set i v

/-- `FlatDictCore_set_item(self, key, value)`: first the Null-sentinel
key check (a ValueError), then, when the existing entry at the key is a
Variable cell, delegation to the cell's own set operation, leaving the
mapping itself untouched; otherwise annotation honoring (the helpers
`get_cached_annotations` and `honor_annotation` live outside the C
source and are modelled from the spec, sections 3 and 4.6, as an
abstract annotation lookup `annos` and an abstract total coercion
`honor`, parameters of the definition), and finally a plain store. -/
def FlatDictCore_set_item {α : Type} (annos : PyObj → Option α) (honor : PyObj → α → PyObj)
    (store : Store) (d : Dict) (key value : PyObj) : Except Err (Store × Dict) :=
  if pyEq key .null then .error .invalidKey
  else
    match dictLookup d key with
    | some (.varRef i) => .ok (cellSet store i value, d)
    | _ =>
      match annos key with
      | some a => .ok (store, dictSet d key (honor value a))
      | none => .ok (store, dictSet d key value)

/-! ## The interpolation resolver (FlatDictCore_interpolate) -/

/-- The three outcomes of the C entry point: return value 1 (applied),
0 (not applicable, the caller falls back), or a raised exception. -/
inductive IResult where
  | applied
  | notApplicable
  | err : Err → IResult

/-- The union of every referenced name across the graph, with duplicates
removed.  The C code builds a PySet; the model fixes first-insertion
order as the deterministic iteration order. -/
def dedupNames (l : List (List Char)) : List (List Char) :=
  l.foldl (fun acc n => if n ∈ acc then acc else acc ++ [n]) []

def graphNames (g : Graph) : List (List Char) := g.foldl (fun a p => a ++ p.2) []

/-- The referenced-names pass of `FlatDictCore_interpolate`: names that
are themselves graph keys are skipped; any other name is fetched from
the mapping (a missing name is the MissingReference ValueError); with
`use_variable` set, a fetched value that is not already a Variable is
boxed: a fresh cell is allocated and the entry is rewritten, through
`FlatDictCore_set_item` exactly as `PyObject_SetItem` dispatches, to a
reference to it.  Errors carry the store and mapping as already mutated
(the C code raises mid-loop). -/
def wrapLoop {α : Type} (annos : PyObj → Option α) (honor : PyObj → α → PyObj)
    (keys : List (List Char)) (uv : Bool) :
    Store → Dict → List (List Char) → Store × Dict × Option Err
  | store, d, [] => (store, d, none)
  | store, d, n :: rest =>
    if n ∈ keys then wrapLoop annos honor keys uv store d rest
    else
      match dictLookup d (.str n) with
      | none => (store, d, some (.missingReference n))
      | some v =>
        if uv then
          match v with
          | .varRef _ => wrapLoop annos honor keys uv store d rest
          | _ =>
            match FlatDictCore_set_item annos honor (store ++ [v]) d (.str n) (.varRef store.length) with
            | .error e => (store ++ [v], d, some e)
            | .ok (store', d') => wrapLoop annos honor keys uv store' d' rest
        else wrapLoop annos honor keys uv store d rest

/-- The substitution pass of `FlatDictCore_interpolate`: every graph
entry's current value is re-fetched; a missing key is a KeyError, a
non-text current value aborts with the fallback signal (mid-loop, any
earlier writes kept), and otherwise the entry is rewritten to the result
of `substitute_value`, again through `FlatDictCore_set_item` as
`PyObject_SetItem` dispatches.  The optional unsafe evaluation step is
outside this model, which covers the default `unsafe_eval=False`. -/
def substLoop {α : Type} (annos : PyObj → Option α) (honor : PyObj → α → PyObj) :
    Store → Dict → Graph → Store × Dict × IResult
  | store, d, [] => (store, d, .applied)
  | store, d, (k, names) :: rest =>
    match dictLookup d (.str k) with
    | none => (store, d, .err (.keyNotFound (.str k)))
    | some cur =>
      match cur with
      | .str t =>
        match substitute_value store t d names with
        | .error e => (store, d, .err e)
        | .ok repl =>
          match FlatDictCore_set_item annos honor store d (.str k) repl with
          | .error e => (store, d, .err e)
          | .ok (store', d') => substLoop annos honor store' d' rest
      | _ => (store, d, .notApplicable)

/-- `FlatDictCore_interpolate(self, use_variable, unsafe_eval=False)`,
in the C code's phase order: the mapping-protocol check (0 for objects
without a subscript slot), graph construction (0 or the self-reference
error), the empty-graph early success, cycle detection (the
CircularReference ValueError), the referenced-names pass, and the
substitution pass.  The result carries the final store and mapping; on
an error they reflect every mutation made before the raise. -/
def FlatDictCore_interpolate {α : Type} (annos : PyObj → Option α) (honor : PyObj → α → PyObj)
    (store : Store) (self : PyObj) (uv : Bool) : Store × PyObj × IResult :=
  if mappingCheck self = false then (store, self, .notApplicable)
  else
    match collect_placeholders self with
    | .error e => (store, self, .err e)
    | .ok none => (store, self, .notApplicable)
    | .ok (some g) =>
      if g.isEmpty then (store, self, .applied)
      else
        match find_circular_reference g with
        | some path => (store, self, .err (.circularReference path))
        | none =>
          match self with
          | .map d =>
            match wrapLoop annos honor (g.map Prod.fst) uv store d (dedupNames (graphNames g)) with
            | (store', d', some e) => (store', .map d', .err e)
            | (store', d', none) =>
              match substLoop annos honor store' d' g with
              | (store'', d'', r) => (store'', .map d'', r)
          | other => (store, other, .notApplicable)

/-! ## Structural algebra (deep_merge, intersect, difference) -/

mutual

/-- `deep_merge(dest, src, overwrite)`: `.ok none` is the C return value
0 (not applicable: one side fails `PyMapping_Check`), `.ok (some dest')`
is 1 with the merged mapping.  A str or list src passes the check but
fails `PyMapping_Items`, an AttributeError (no items method). -/
def deep_merge (dest src : PyObj) (ow : Bool) : Except Err (Option PyObj) :=
  if mappingCheck src && mappingCheck dest then
    match src with
    | .map sitems =>
      (match mergeGo dest ow sitems with
       | .error e => .error e
       | .ok dest' => .ok (some dest'))
    | _ => .error .attributeError
  else .ok none

/-- The item loop of `deep_merge`.  For each src item the dest entry is
fetched with `PyObject_GetItem`; in CPython a missing key raises
KeyError, which the C code's `PyErr_Occurred()` test turns into a raised
error (its `overwrite || !existing` fallback for missing keys is dead
code).  When both sides support the mapping protocol the merge recurses
— the C code mutates the shared nested object in place, modelled by
writing the merged value back; a recursive 0, impossible after the
checks just made, would simply continue.  Otherwise the entry is
overwritten exactly when `overwrite` is set. -/
def mergeGo (dest : PyObj) (ow : Bool) : List (PyObj × PyObj) → Except Err PyObj
  | [] => .ok dest
  | (k, v) :: rest =>
    match pyGetItem dest k with
    | .error e => .error e
    | .ok existing =>
      if mappingCheck existing && mappingCheck v then
        match deep_merge existing v ow with
        | .error e => .error e
        | .ok none => mergeGo dest ow rest
        | .ok (some e') =>
          match pySetItem dest k e' with
          | .error e => .error e
          | .ok dest' => mergeGo dest' ow rest
      else if ow then
        match pySetItem dest k v with
        | .error e => .error e
        | .ok dest' => mergeGo dest' ow rest
      else mergeGo dest ow rest

end

/-- The intersect item loop: each item of `other` is kept when `self`
holds an equal value at its key.  `PyObject_GetItem` on a key absent
from `self` raises KeyError and the C code's `PyErr_Occurred()` test
propagates it (its `continue` for a silent miss is dead code). -/
def intersectGo (self : PyObj) (acc : Dict) : List (PyObj × PyObj) → Except Err (Option PyObj)
  | [] => .ok (some (.map acc))
  | (k, v) :: rest =>
    match pyGetItem self k with
    | .error e => .error e
    | .ok existing =>
      if pyEq existing v then intersectGo self (dictSet acc k v) rest
      else intersectGo self acc rest

/-- `FlatDictCore_intersect(self, other)`: `.ok none` is the C Py_RETURN_NONE
fallback signal for inputs failing `PyMapping_Check`; otherwise a fresh
dict of the items of `other` whose value compares equal in `self`.  A
str or list other passes the check but fails `PyMapping_Items` with an
AttributeError. -/
def FlatDictCore_intersect (self other : PyObj) : Except Err (Option PyObj) :=
  if mappingCheck other && mappingCheck self then
    match other with
    | .map oitems => intersectGo self [] oitems
    | _ => .error .attributeError
  else .ok none

/-- The difference item loop: each item of `other` is kept when `self`
holds no equal value at its key; as in `intersectGo`, a key absent from
`self` raises KeyError through the `PyErr_Occurred()` test (the
fall-through that would have included it is dead code). -/
def differenceGo (self : PyObj) (acc : Dict) : List (PyObj × PyObj) → Except Err (Option PyObj)
  | [] => .ok (some (.map acc))
  | (k, v) :: rest =>
    match pyGetItem self k with
    | .error e => .error e
    | .ok existing =>
      if pyEq existing v then differenceGo self acc rest
      else differenceGo self (dictSet acc k v) rest

/-- `FlatDictCore_difference(self, other)`: fallback and item handling
as in `FlatDictCore_intersect`, keeping the unequal items instead. -/
def FlatDictCore_difference (self other : PyObj) : Except Err (Option PyObj) :=
  if mappingCheck other && mappingCheck self then
    match other with
    | .map oitems => differenceGo self [] oitems
    | _ => .error .attributeError
  else .ok none

/-! ## Definitions used by the theorem statements -/

/-- The empty annotation environment (no key has a declared type),
used to instantiate the annotation-parametric operations. -/
def annoNone : PyObj → Option Unit := fun _ => none

/-- The coercion for the empty annotation environment (never reached). -/
def honorId : PyObj → Unit → PyObj := fun v _ => v

/-- A character that is none of the three characters the scanner treats
specially. -/
def plainChar (c : Char) : Bool := c != '$' && c != '{' && c != '}'

/-- Stated from the spec's words for comparison with the code: the
entry's entire text is a single placeholder spanning the whole string
with nothing else, that is, a dollar sign and an opening brace, then a
name containing no brace, then the closing brace ending the string. -/
def specSingleWholePlaceholder (t : List Char) : Bool :=
  t.take 2 == ['$', '{'] && t.getLast? == some '}' && decide (t.length ≥ 3) &&
    (t.drop 2).dropLast.all (fun c => c != '{' && c != '}')

/-- The graph builder scans past this entry without stopping: its key is
text, its value is neither a sequence nor a non-text mapping, and if the
value is text with a dollar sign whose scan finds placeholders, their
adjustment raises no self-reference. -/
def entryScanOk (k v : PyObj) : Bool :=
  match k with
  | .str ks =>
    !isListObj v && !(mappingCheck v && !isStrObj v) &&
      (match v with
       | .str vs =>
         !has_dollar vs ||
           (match find_placeholders vs with
            | [] => true
            | p :: ps =>
              match adjust_placeholders ks (p :: ps) with
              | .ok _ => true
              | .error _ => false)
       | _ => true)
  | _ => false

/-- The graph builder stops at this entry with the fallback signal: a
non-text key, a sequence value, or a non-text value supporting the
mapping protocol. -/
def entryBadShape (k v : PyObj) : Bool :=
  !isStrObj k || isListObj v || (mappingCheck v && !isStrObj v)

/-- Whether an error is one of the two reference errors of the graph
phase (self-reference or circular reference). -/
def isRefErr : Err → Bool
  | .selfReference _ => true
  | .circularReference _ => true
  | _ => false

/-- Observation used to separate two mappings: the text stored at a
given key, when the object is a dict holding text there. -/
def strAt (o : PyObj) (k : List Char) : Option (List Char) :=
  match o with
  | .map d =>
    match dictLookup d (.str k) with
    | some (.str s) => some s
    | _ => none
  | _ => none

/-! ## Scanner lemmas -/

theorem fpScanF_nil (f : Nat) (st : List (List Char)) : fpScanF f [] st = [] := by
  cases f <;> rfl

/-- A character that is not a dollar sign and not a closing brace
extends the innermost open accumulator and costs one unit of fuel. -/
theorem fpScanF_step_plain (f : Nat) (c : Char) (r a : List Char) (st : List (List Char))
    (hc1 : ¬(c = '$')) (hc3 : ¬(c = '}')) :
    fpScanF (f + 1) (c :: r) (a :: st) = fpScanF f r ((a ++ [c]) :: st) := by
  cases st with
  | nil =>
    show fpScanF (Nat.succ f) (c :: r) [a] = _
    rw [fpScanF.eq_4, if_neg (fun h => hc1 h.1), if_neg hc3]
  | cons outer st' =>
    show fpScanF (Nat.succ f) (c :: r) (a :: outer :: st') = _
    rw [fpScanF.eq_5, if_neg (fun h => hc1 h.1), if_neg hc3]

/-- The same step with an empty stack: the character is ignored. -/
theorem fpScanF_step_skip (f : Nat) (c : Char) (r : List Char)
    (hc1 : ¬(c = '$')) (hc3 : ¬(c = '}')) :
    fpScanF (f + 1) (c :: r) [] = fpScanF f r [] := by
  show fpScanF (Nat.succ f) (c :: r) [] = _
  rw [fpScanF.eq_3, if_neg (fun h => hc1 h.1), if_neg hc3]

theorem plainChar_spec {c : Char} (hc : plainChar c = true) :
    ¬(c = '$') ∧ ¬(c = '{') ∧ ¬(c = '}') := by
  refine ⟨fun h => ?_, fun h => ?_, fun h => ?_⟩ <;> (subst h; simp [plainChar] at hc)

/-- Scanning a run of plain characters with a non-empty stack moves them
into the top accumulator, spending exactly one unit of fuel each. -/
theorem fpScanF_plain_push :
    ∀ (s : List Char), s.all plainChar = true →
      ∀ (f : Nat) (r a : List Char) (st : List (List Char)),
        fpScanF (s.length + f) (s ++ r) (a :: st) = fpScanF f r ((a ++ s) :: st) := by
  intro s
  induction s with
  | nil => intro _ f r a st; simp
  | cons c s' ih =>
    intro hs f r a st
    obtain ⟨hc, hs'⟩ : plainChar c = true ∧ s'.all plainChar = true := by
      simpa using hs
    obtain ⟨hc1, _, hc3⟩ := plainChar_spec hc
    have hlen : (c :: s').length + f = (s'.length + f) + 1 := by
      simp [List.length_cons]; omega
    rw [hlen]
    show fpScanF ((s'.length + f) + 1) (c :: (s' ++ r)) (a :: st) = _
    rw [fpScanF_step_plain _ c _ a st hc1 hc3]
    rw [ih hs' f r (a ++ [c]) st]
    simp [List.append_assoc]

/-- Scanning a run of plain characters with an empty stack ignores them,
spending exactly one unit of fuel each. -/
theorem fpScanF_plain_skip :
    ∀ (s : List Char), s.all plainChar = true →
      ∀ (f : Nat) (r : List Char),
        fpScanF (s.length + f) (s ++ r) [] = fpScanF f r [] := by
  intro s
  induction s with
  | nil => intro _ f r; simp
  | cons c s' ih =>
    intro hs f r
    obtain ⟨hc, hs'⟩ : plainChar c = true ∧ s'.all plainChar = true := by
      simpa using hs
    obtain ⟨hc1, _, hc3⟩ := plainChar_spec hc
    have hlen : (c :: s').length + f = (s'.length + f) + 1 := by
      simp [List.length_cons]; omega
    rw [hlen]
    show fpScanF ((s'.length + f) + 1) (c :: (s' ++ r)) [] = _
    rw [fpScanF_step_skip _ c _ hc1 hc3]
    exact ih hs' f r

/-- A placeholder wrapping a run of plain characters is found, and is
the only thing found: spec section 8's first testable property. -/
theorem find_placeholders_wrap (s : List Char) (hs : s.all plainChar = true) :
    find_placeholders ('$' :: '{' :: (s ++ ['}'])) = [s] := by
  unfold find_placeholders
  have hlen : ('$' :: '{' :: (s ++ ['}'])).length = s.length + 3 := by simp
  rw [hlen]
  have hF : (s.length + 3 + 1) * (s.length + 3 + 1)
      = (s.length + ((s.length + (s.length * s.length + 6 * s.length + 14)) + 1)) + 1 := by
    ring
  rw [hF]
  rw [fpScanF]
  rw [if_pos ⟨rfl, rfl⟩]
  show fpScanF (s.length + ((s.length + (s.length * s.length + 6 * s.length + 14)) + 1))
      (s ++ ['}']) [[]] = [s]
  rw [fpScanF_plain_push s hs _ ['}'] [] []]
  show fpScanF ((s.length + (s.length * s.length + 6 * s.length + 14)) + 1) ['}'] [s] = [s]
  rw [fpScanF]
  rw [if_neg (fun h => absurd h.1 (by decide)), if_pos rfl]
  show s :: (fpScanF (s.length + (s.length * s.length + 6 * s.length + 14)) s []
      ++ fpScanF (s.length + (s.length * s.length + 6 * s.length + 14)) [] []) = [s]
  have h1 := fpScanF_plain_skip s hs (s.length * s.length + 6 * s.length + 14) []
  rw [List.append_nil] at h1
  rw [h1, fpScanF_nil, fpScanF_nil]
  rfl

/-! ## Claim C1 -/

/-- C1 counterexample: the claim says every closing brace seen with a
non-empty stack records the popped placeholder, so that the inner
placeholder of "$\x7ba$\x7bb" (closed while the unclosed outer one is
still on the stack) is still recorded; but the scanner records a popped
placeholder only when the pop empties the stack, so the scan of
"$\x7ba$\x7bb" records nothing at all and "b" is absent. -/
theorem C1_every_pop_records_refuted :
    find_placeholders ("$\x7ba$\x7bb".toList) = []
      ∧ "b".toList ∉ find_placeholders ("$\x7ba$\x7bb".toList) :=
  ⟨rfl, by decide⟩

/-- C1 (amended): the scanner performs a single left-to-right scan with
a stack of unmatched placeholder starts, but on a closing brace it
records the popped text (and re-scans only that text for nested
placeholders) only when the pop empties the stack; inner placeholders
are reported through that re-scan, so find_placeholders on "$\x7ba$\x7bb\x7d\x7d"
returns the outer text then the nested name, a plain-character
placeholder is found exactly once, and an inner placeholder closed
inside a never-closed outer start is dropped, not recorded. -/
theorem C1_scan_records_on_outermost_close :
    (∀ s : List Char, s.all plainChar = true →
        find_placeholders ('$' :: '{' :: (s ++ ['}'])) = [s])
      ∧ find_placeholders ("$\x7ba$\x7bb\x7d\x7d".toList) = ["a$\x7bb\x7d".toList, "b".toList]
      ∧ find_placeholders ("$\x7ba$\x7bb".toList) = [] :=
  ⟨fun s hs => find_placeholders_wrap s hs, rfl, rfl⟩

/-- C1 witness: the wrapped-run conjunct applied at the plain text "xy". -/
theorem C1_scan_records_on_outermost_close_witness :
    ("xy".toList.all plainChar = true)
      ∧ find_placeholders ('$' :: '{' :: ("xy".toList ++ ['}'])) = ["xy".toList] :=
  ⟨rfl, C1_scan_records_on_outermost_close.1 ("xy".toList) rfl⟩

/-! ## Claim C2 -/

/-- C2 counterexample: the claim says the referenced value replaces the
entry exactly when the entry's whole text is a single placeholder with
nothing else; but the fast path of substitute_value checks only the
first two characters and the last one, so the text "$\x7ba\x7dx\x7d" —
whose single discovered placeholder name is "a" but which is not a
single whole-string placeholder — is still replaced by the raw value of
"a" (here the integer 5, also in a full interpolation run). -/
theorem C2_pure_reference_exactness_refuted :
    find_placeholders ("$\x7ba\x7dx\x7d".toList) = ["a".toList]
      ∧ substitute_value [] ("$\x7ba\x7dx\x7d".toList) [(.str "a".toList, .intv 5)] ["a".toList]
          = .ok (.intv 5)
      ∧ specSingleWholePlaceholder ("$\x7ba\x7dx\x7d".toList) = false
      ∧ FlatDictCore_interpolate annoNone honorId []
          (.map [(.str "a".toList, .intv 5), (.str "b".toList, .str "$\x7ba\x7dx\x7d".toList)]) false
          = ([], .map [(.str "a".toList, .intv 5), (.str "b".toList, .intv 5)], .applied) :=
  ⟨rfl, rfl, rfl, rfl⟩

/-- C2 (amended): the referenced value itself replaces the entry
whenever the discovered-names list holds exactly one name and the text
is at least three characters long, starts with a dollar sign and an
opening brace, and ends with a closing brace — a condition satisfied by
every whole-string single placeholder but also by some other texts;
any other text is substituted textually, with every dollar sign
stripped before each brace-enclosed name is replaced by the textual
form of its resolved value. -/
theorem C2_fast_path_and_textual_substitution :
    (∀ (store : Store) (d : Dict) (name : List Char) (v : PyObj),
        dictLookup d (.str name) = some v →
        substitute_value store ('$' :: '{' :: (name ++ ['}'])) d [name] = .ok v)
      ∧ substitute_value [] ("v=$\x7ba\x7d".toList) [(.str "a".toList, .intv 5)] ["a".toList]
          = .ok (.str "v=5".toList) := by
  constructor
  · intro store d name v hv
    have h1 : ('$' :: '{' :: (name ++ ['}'])).length ≥ 3 := by simp
    have h2 : ('$' :: '{' :: (name ++ ['}'])).getLast? = some '}' := by
      have hsplit : '$' :: '{' :: (name ++ ['}']) = ('$' :: '{' :: name) ++ ['}'] := by simp
      rw [hsplit, List.getLast?_concat]
    have h3 : ('$' :: '{' :: (name ++ ['}']))[1]? = some '{' := by simp
    show (if ('$' :: '{' :: (name ++ ['}'])).length ≥ 3
            ∧ ('$' :: '{' :: (name ++ ['}'])).head? = some '$'
            ∧ ('$' :: '{' :: (name ++ ['}']))[1]? = some '{'
            ∧ ('$' :: '{' :: (name ++ ['}'])).getLast? = some '}' then
          match dictLookup d (PyObj.str name) with
          | some v => Except.ok v
          | none => Except.error (Err.keyNotFound (PyObj.str name))
        else subFormat store d ('$' :: '{' :: (name ++ ['}'])))
        = Except.ok v
    rw [if_pos ⟨h1, rfl, h3, h2⟩, hv]
  · rfl

/-- C2 witness: the pure-reference conjunct applied at name "a". -/
theorem C2_fast_path_and_textual_substitution_witness :
    dictLookup [(.str "a".toList, .intv 7)] (.str "a".toList) = some (.intv 7)
      ∧ substitute_value [] ('$' :: '{' :: ("a".toList ++ ['}']))
          [(.str "a".toList, .intv 7)] ["a".toList] = .ok (.intv 7) :=
  ⟨rfl, C2_fast_path_and_textual_substitution.1 [] _ _ _ rfl⟩

/-! ## Claim C3 -/

/-- C3: a placeholder name beginning with a dot is rewritten to the
owning key's qualifying text — the key up to its last separator, or the
whole key when it has none (`ownerScope`) — concatenated with the name
(whose leading dot supplies the separator); in particular the owning
key "group.value" with content "$\x7b.other\x7d" resolves to
"group.other", and a dotless owning key "top" with ".x" resolves to
"top.x". -/
theorem C3_relative_reference_rewrite :
    (∀ (key rest : List Char),
        ownerScope key ++ ('.' :: rest) ≠ key →
        adjust_placeholders key ['.' :: rest] = .ok [ownerScope key ++ ('.' :: rest)])
      ∧ adjust_placeholders ("group.value".toList) [".other".toList]
          = .ok ["group.other".toList]
      ∧ adjust_placeholders ("top".toList) [".x".toList] = .ok ["top.x".toList] := by
  refine ⟨?_, rfl, rfl⟩
  intro key rest hne
  have h1 : adjustOne key ('.' :: rest) = .ok (ownerScope key ++ ('.' :: rest)) := by
    show (if ownerScope key ++ ('.' :: rest) = key
          then (Except.error (Err.selfReference key) : Except Err (List Char))
          else .ok (ownerScope key ++ ('.' :: rest)))
        = .ok (ownerScope key ++ ('.' :: rest))
    rw [if_neg hne]
  simp only [adjust_placeholders]
  rw [h1]

/-- C3 witness: the rewrite conjunct applied at the claim's example. -/
theorem C3_relative_reference_rewrite_witness :
    (ownerScope ("group.value".toList) ++ ('.' :: "other".toList) ≠ "group.value".toList)
      ∧ adjust_placeholders ("group.value".toList) ['.' :: "other".toList]
          = .ok [ownerScope ("group.value".toList) ++ ('.' :: "other".toList)] :=
  ⟨by decide, C3_relative_reference_rewrite.1 _ _ (by decide)⟩

/-! ## Graph builder lemmas -/

/-- Entries the scan passes without stopping do not change what the
graph builder does afterwards, beyond extending the accumulated graph:
the scan of a list starting with scan-ok entries continues on the rest
from some extended accumulator. -/
theorem collectGo_scanOk_prefix :
    ∀ (pre : List (PyObj × PyObj)), (∀ p ∈ pre, entryScanOk p.1 p.2 = true) →
      ∀ (acc : Graph) (rest : List (PyObj × PyObj)),
        ∃ acc', collectGo acc (pre ++ rest) = collectGo acc' rest := by
  intro pre
  induction pre with
  | nil => intro _ acc rest; exact ⟨acc, rfl⟩
  | cons p pre' ih =>
    intro h acc rest
    obtain ⟨k, v⟩ := p
    have hp : entryScanOk k v = true := h (k, v) (List.mem_cons_self _ _)
    have h' : ∀ q ∈ pre', entryScanOk q.1 q.2 = true :=
      fun q hq => h q (List.mem_cons_of_mem _ hq)
    cases k with
    | str ks =>
      cases v with
      | str vs =>
        show ∃ acc',
          (if has_dollar vs = true then
            match find_placeholders vs with
            | [] => collectGo acc (pre' ++ rest)
            | p :: ps =>
              match adjust_placeholders ks (p :: ps) with
              | .error e => .error e
              | .ok ps' => collectGo (acc ++ [(ks, ps')]) (pre' ++ rest)
          else collectGo acc (pre' ++ rest)) = collectGo acc' rest
        by_cases hd : has_dollar vs = true
        · rw [if_pos hd]
          cases hfp : find_placeholders vs with
          | nil => exact ih h' acc rest
          | cons q qs =>
            show ∃ acc',
              (match adjust_placeholders ks (q :: qs) with
               | .error e => (.error e : Except Err (Option Graph))
               | .ok ps' => collectGo (acc ++ [(ks, ps')]) (pre' ++ rest)) = collectGo acc' rest
            cases hadj : adjust_placeholders ks (q :: qs) with
            | error e =>
              have hfalse : entryScanOk (.str ks) (.str vs) = false := by
                simp [entryScanOk, isListObj, isStrObj, mappingCheck, hd, hfp, hadj]
              rw [hp] at hfalse
              exact Bool.noConfusion hfalse
            | ok ps' => exact ih h' (acc ++ [(ks, ps')]) rest
        · rw [if_neg hd]
          exact ih h' acc rest
      | intv i => exact ih h' acc rest
      | varRef i => exact ih h' acc rest
      | null => exact ih h' acc rest
      | list l => simp [entryScanOk, isListObj] at hp
      | map m => simp [entryScanOk, mappingCheck, isStrObj] at hp
    | intv i => simp [entryScanOk] at hp
    | list l => simp [entryScanOk] at hp
    | map m => simp [entryScanOk] at hp
    | varRef i => simp [entryScanOk] at hp
    | null => simp [entryScanOk] at hp

/-! ## Claim C7 -/

/-- C7 counterexample: the claim says interpolation fails with the
self-reference error whenever some entry's placeholder name equals its
own owning key; but when an entry with a non-text key comes first in
iteration order, the graph builder aborts with the fallback signal
before ever reaching the self-referencing entry, so interpolation
reports NotApplicable and raises nothing. -/
theorem C7_always_self_reference_refuted :
    FlatDictCore_interpolate annoNone honorId []
        (.map [(.intv 1, .str "x".toList), (.str "self".toList, .str "$\x7bself\x7d".toList)]) true
      = ([], .map [(.intv 1, .str "x".toList), (.str "self".toList, .str "$\x7bself\x7d".toList)],
          .notApplicable) := rfl

/-- C7 (amended): when every entry earlier in iteration order passes
the shape scan (text key, non-sequence non-mapping value, adjustment
without self-reference), an entry whose scanned placeholder names
adjust to a self-reference makes interpolation fail with the
SelfReference error identifying the offending key, before any entry is
written; in particular the single-entry mapping from "self" to
"$\x7bself\x7d" fails this way. -/
theorem C7_self_reference_after_clean_prefix (α : Type)
    (annos : PyObj → Option α) (honor : PyObj → α → PyObj)
    (store : Store) (uv : Bool) (pre suf : List (PyObj × PyObj)) (ks vs : List Char)
    (hpre : ∀ p ∈ pre, entryScanOk p.1 p.2 = true)
    (hd : has_dollar vs = true)
    (q : List Char) (qs : List (List Char)) (hfp : find_placeholders vs = q :: qs)
    (hadj : adjust_placeholders ks (q :: qs) = .error (.selfReference ks)) :
    FlatDictCore_interpolate annos honor store (.map (pre ++ (.str ks, .str vs) :: suf)) uv
      = (store, .map (pre ++ (.str ks, .str vs) :: suf), .err (.selfReference ks)) := by
  have hcol : collect_placeholders (.map (pre ++ (.str ks, .str vs) :: suf))
      = .error (.selfReference ks) := by
    show collectGo [] (pre ++ (.str ks, .str vs) :: suf) = _
    obtain ⟨acc', hacc⟩ := collectGo_scanOk_prefix pre hpre [] ((.str ks, .str vs) :: suf)
    rw [hacc]
    show (if has_dollar vs = true then
            match find_placeholders vs with
            | [] => collectGo acc' suf
            | p :: ps =>
              match adjust_placeholders ks (p :: ps) with
              | .error e => (.error e : Except Err (Option Graph))
              | .ok ps' => collectGo (acc' ++ [(ks, ps')]) suf
          else collectGo acc' suf) = .error (.selfReference ks)
    rw [if_pos hd, hfp]
    show (match adjust_placeholders ks (q :: qs) with
          | .error e => (.error e : Except Err (Option Graph))
          | .ok ps' => collectGo (acc' ++ [(ks, ps')]) suf) = .error (.selfReference ks)
    rw [hadj]
  unfold FlatDictCore_interpolate
  rw [if_neg (by simp [mappingCheck]), hcol]

/-- C7 witness: the theorem applied at the claim's own example. -/
theorem C7_self_reference_after_clean_prefix_witness :
    has_dollar ("$\x7bself\x7d".toList) = true
      ∧ find_placeholders ("$\x7bself\x7d".toList) = ["self".toList]
      ∧ adjust_placeholders ("self".toList) ["self".toList]
          = .error (.selfReference ("self".toList))
      ∧ FlatDictCore_interpolate annoNone honorId []
          (.map [(.str "self".toList, .str "$\x7bself\x7d".toList)]) true
          = ([], .map [(.str "self".toList, .str "$\x7bself\x7d".toList)],
              .err (.selfReference ("self".toList))) :=
  ⟨rfl, rfl, rfl,
    C7_self_reference_after_clean_prefix Unit annoNone honorId [] true [] []
      ("self".toList) ("$\x7bself\x7d".toList) (by simp) rfl ("self".toList) [] rfl rfl⟩

/-! ## Claim C8 -/

/-- C8 counterexample: the claim says interpolate signals NotApplicable
whenever any value of the mapping is a sequence and whenever the input
is not a mapping; but in the first mapping below, whose second value is
a sequence, the self-referencing first entry makes the graph builder
raise the SelfReference error before the scan reaches the sequence, and
plain text input — not a mapping — passes `PyMapping_Check` (which
accepts any object with a subscript slot) only for `PyMapping_Items` to
raise AttributeError, so both runs error instead of signalling
NotApplicable. -/
theorem C8_not_applicable_whenever_refuted :
    FlatDictCore_interpolate annoNone honorId []
        (.map [(.str "self".toList, .str "$\x7bself\x7d".toList), (.str "k".toList, .list [])]) true
      = ([], .map [(.str "self".toList, .str "$\x7bself\x7d".toList), (.str "k".toList, .list [])],
          .err (.selfReference ("self".toList)))
    ∧ FlatDictCore_interpolate annoNone honorId [] (.str "abc".toList) true
      = ([], .str "abc".toList, .err .attributeError) :=
  ⟨rfl, rfl⟩

/-- C8 (amended): interpolate signals NotApplicable — raising nothing —
for input that supports no subscripting at all (a number), and for a
mapping in which, scanning items in iteration order, an entry with a
non-text key or with a sequence or non-text mapping-protocol value is
reached with every earlier entry passing the shape scan; an entry that
raises SelfReference earlier in the order preempts the fallback, and
text or sequence input, which passes the subscript check but has no
items method, raises AttributeError instead of signalling
NotApplicable. -/
theorem C8_not_applicable_conditions (α : Type)
    (annos : PyObj → Option α) (honor : PyObj → α → PyObj) :
    (∀ (store : Store) (n : Int) (uv : Bool),
        FlatDictCore_interpolate annos honor store (.intv n) uv
          = (store, .intv n, .notApplicable))
      ∧ (∀ (store : Store) (s : List Char) (uv : Bool),
          FlatDictCore_interpolate annos honor store (.str s) uv
            = (store, .str s, .err .attributeError))
      ∧ (∀ (store : Store) (l : List PyObj) (uv : Bool),
          FlatDictCore_interpolate annos honor store (.list l) uv
            = (store, .list l, .err .attributeError))
      ∧ (∀ (store : Store) (uv : Bool) (pre suf : List (PyObj × PyObj)) (k v : PyObj),
          (∀ p ∈ pre, entryScanOk p.1 p.2 = true) →
          entryBadShape k v = true →
          FlatDictCore_interpolate annos honor store (.map (pre ++ (k, v) :: suf)) uv
            = (store, .map (pre ++ (k, v) :: suf), .notApplicable)) := by
  refine ⟨fun store n uv => rfl, fun store s uv => rfl, fun store l uv => rfl, ?_⟩
  intro store uv pre suf k v hpre hbad
  have hcol : collect_placeholders (.map (pre ++ (k, v) :: suf)) = .ok none := by
    show collectGo [] (pre ++ (k, v) :: suf) = _
    obtain ⟨acc', hacc⟩ := collectGo_scanOk_prefix pre hpre [] ((k, v) :: suf)
    rw [hacc]
    cases k with
    | str ks =>
      cases v with
      | list l => rfl
      | map m => rfl
      | str vs => simp [entryBadShape, isStrObj, isListObj, mappingCheck] at hbad
      | intv i => simp [entryBadShape, isStrObj, isListObj, mappingCheck] at hbad
      | varRef i => simp [entryBadShape, isStrObj, isListObj, mappingCheck] at hbad
      | null => simp [entryBadShape, isStrObj, isListObj, mappingCheck] at hbad
    | intv i => rfl
    | list l => rfl
    | map m => rfl
    | varRef i => rfl
    | null => rfl
  unfold FlatDictCore_interpolate
  rw [if_neg (by simp [mappingCheck]), hcol]

/-- C8 witness: the four conjuncts at concrete inputs — the number 3,
the text "abc", the empty sequence, and a mapping whose first entry is
clean text and whose second has a sequence value. -/
theorem C8_not_applicable_conditions_witness :
    FlatDictCore_interpolate annoNone honorId [] (.intv 3) false = ([], .intv 3, .notApplicable)
      ∧ FlatDictCore_interpolate annoNone honorId [] (.str "abc".toList) false
          = ([], .str "abc".toList, .err .attributeError)
      ∧ FlatDictCore_interpolate annoNone honorId [] (.list []) false
          = ([], .list [], .err .attributeError)
      ∧ entryBadShape (.str "k".toList) (.list []) = true
      ∧ FlatDictCore_interpolate annoNone honorId []
          (.map [(.str "a".toList, .str "x".toList), (.str "k".toList, .list [])]) false
          = ([], .map [(.str "a".toList, .str "x".toList), (.str "k".toList, .list [])],
              .notApplicable) :=
  ⟨(C8_not_applicable_conditions Unit annoNone honorId).1 [] 3 false,
    (C8_not_applicable_conditions Unit annoNone honorId).2.1 [] ("abc".toList) false,
    (C8_not_applicable_conditions Unit annoNone honorId).2.2.1 [] [] false,
    rfl,
    (C8_not_applicable_conditions Unit annoNone honorId).2.2.2 [] false
      [(.str "a".toList, .str "x".toList)] [] (.str "k".toList) (.list [])
      (by simp [entryScanOk, isListObj, isStrObj, mappingCheck, has_dollar]) rfl⟩

/-! ## Claim C4 -/

/-- C4 counterexample: the claim says a second interpolation of any
Applied result is a no-op with an empty graph; but on the chain where
"a" references "b" and "b" references "c", the substitution pass copies
the not-yet-substituted text of "b" into "a" (entries are substituted
in iteration order against the current mapping), the first pass still
reports Applied and leaves "a" holding a placeholder, and the second
pass builds a non-empty graph and changes "a" again. -/
theorem C4_idempotence_refuted :
    FlatDictCore_interpolate annoNone honorId []
        (.map [(.str "a".toList, .str "$\x7bb\x7d".toList),
               (.str "b".toList, .str "$\x7bc\x7d".toList),
               (.str "c".toList, .str "1".toList)]) false
      = ([], .map [(.str "a".toList, .str "$\x7bc\x7d".toList),
                   (.str "b".toList, .str "1".toList),
                   (.str "c".toList, .str "1".toList)], .applied)
    ∧ FlatDictCore_interpolate annoNone honorId []
        (.map [(.str "a".toList, .str "$\x7bc\x7d".toList),
               (.str "b".toList, .str "1".toList),
               (.str "c".toList, .str "1".toList)]) false
      = ([], .map [(.str "a".toList, .str "1".toList),
                   (.str "b".toList, .str "1".toList),
                   (.str "c".toList, .str "1".toList)], .applied)
    ∧ PyObj.map [(.str "a".toList, .str "1".toList),
                 (.str "b".toList, .str "1".toList),
                 (.str "c".toList, .str "1".toList)]
        ≠ PyObj.map [(.str "a".toList, .str "$\x7bc\x7d".toList),
                     (.str "b".toList, .str "1".toList),
                     (.str "c".toList, .str "1".toList)] :=
  ⟨rfl, rfl, fun h => absurd (congrArg (fun o => strAt o ("a".toList)) h) (by decide)⟩

/-- C4 (amended): when interpolate reports Applied and the resulting
mapping's placeholder graph is empty (no entry's text still holds a
placeholder), running interpolate again is a no-op: the second pass
builds the empty graph, reports Applied, and leaves the store and every
entry unchanged. -/
theorem C4_idempotent_when_resolved (α : Type)
    (annos : PyObj → Option α) (honor : PyObj → α → PyObj)
    (store : Store) (self : PyObj) (uv : Bool) (store1 : Store) (self1 : PyObj)
    (h1 : FlatDictCore_interpolate annos honor store self uv = (store1, self1, .applied))
    (h2 : collect_placeholders self1 = .ok (some [])) :
    FlatDictCore_interpolate annos honor store1 self1 uv = (store1, self1, .applied) := by
  cases self1 with
  | map d =>
    unfold FlatDictCore_interpolate
    rw [if_neg (by simp [mappingCheck]), h2]
    rfl
  | str s => exact absurd h2 (by simp [collect_placeholders])
  | list l => exact absurd h2 (by simp [collect_placeholders])
  | intv i => exact absurd h2 (by simp [collect_placeholders])
  | varRef i => exact absurd h2 (by simp [collect_placeholders])
  | null => exact absurd h2 (by simp [collect_placeholders])

/-- C4 witness: the theorem applied to an Applied run whose result has
no remaining placeholders. -/
theorem C4_idempotent_when_resolved_witness :
    FlatDictCore_interpolate annoNone honorId []
        (.map [(.str "a".toList, .str "x".toList), (.str "b".toList, .str "$\x7ba\x7d".toList)]) false
      = ([], .map [(.str "a".toList, .str "x".toList), (.str "b".toList, .str "x".toList)], .applied)
    ∧ collect_placeholders
        (.map [(.str "a".toList, .str "x".toList), (.str "b".toList, .str "x".toList)])
        = .ok (some [])
    ∧ FlatDictCore_interpolate annoNone honorId []
        (.map [(.str "a".toList, .str "x".toList), (.str "b".toList, .str "x".toList)]) false
      = ([], .map [(.str "a".toList, .str "x".toList), (.str "b".toList, .str "x".toList)], .applied) :=
  ⟨rfl, rfl,
    C4_idempotent_when_resolved Unit annoNone honorId []
      (.map [(.str "a".toList, .str "x".toList), (.str "b".toList, .str "$\x7ba\x7d".toList)])
      false []
      (.map [(.str "a".toList, .str "x".toList), (.str "b".toList, .str "x".toList)])
      rfl rfl⟩

/-! ## Claim C5 -/

/-- C5: the two single-key overwrite examples behave as the claim says,
but a key of src absent from dest is never stored: `PyObject_GetItem`
raises KeyError and the `PyErr_Occurred()` test turns it into an error,
so the claim's recursive example, which needs the missing key "y" to be
set inside the nested mapping, raises KeyError instead of merging, as
does merging any new key into an empty dict. -/
theorem C5_deep_merge_eval :
    deep_merge (.map [(.str "a".toList, .intv 1)]) (.map [(.str "a".toList, .intv 2)]) false
        = .ok (some (.map [(.str "a".toList, .intv 1)]))
    ∧ deep_merge (.map [(.str "a".toList, .intv 1)]) (.map [(.str "a".toList, .intv 2)]) true
        = .ok (some (.map [(.str "a".toList, .intv 2)]))
    ∧ deep_merge (.map [(.str "a".toList, .map [(.str "x".toList, .intv 1)])])
                 (.map [(.str "a".toList, .map [(.str "y".toList, .intv 2)])]) true
        = .error (.keyNotFound (.str "y".toList))
    ∧ deep_merge (.map []) (.map [(.str "a".toList, .intv 1)]) true
        = .error (.keyNotFound (.str "a".toList)) :=
  ⟨rfl, rfl, rfl, rfl⟩

/-! ## Claim C6 -/

/-- C6: on inputs where every key of other exists in self, intersect
and difference return exactly what the claim says; but a key of other
absent from self makes `PyObject_GetItem` raise KeyError, which the
`PyErr_Occurred()` test propagates, so instead of omitting the key
(intersect) or including it (difference) both operations raise. -/
theorem C6_intersect_difference_eval :
    FlatDictCore_intersect (.map [(.str "a".toList, .intv 1), (.str "b".toList, .intv 2)])
        (.map [(.str "a".toList, .intv 1), (.str "b".toList, .intv 3)])
        = .ok (some (.map [(.str "a".toList, .intv 1)]))
    ∧ FlatDictCore_difference (.map [(.str "a".toList, .intv 1), (.str "b".toList, .intv 2)])
        (.map [(.str "a".toList, .intv 1), (.str "b".toList, .intv 3)])
        = .ok (some (.map [(.str "b".toList, .intv 3)]))
    ∧ FlatDictCore_intersect (.map []) (.map [(.str "a".toList, .intv 1)])
        = .error (.keyNotFound (.str "a".toList))
    ∧ FlatDictCore_difference (.map []) (.map [(.str "a".toList, .intv 1)])
        = .error (.keyNotFound (.str "a".toList)) :=
  ⟨rfl, rfl, rfl, rfl⟩

/-! ## Claim C9 -/

/-- C9: writing to a key whose existing entry is a Variable cell
delegates to the cell's set operation: the store cell is overwritten in
place, the mapping itself is returned unchanged — so it still holds the
identical cell (the same cell number) at that key — and the result does
not depend on the annotation lookup or the coercion function, which are
universally quantified here and absent from the right-hand side: cell
delegation takes precedence over the annotation step. -/
theorem C9_variable_cell_delegation (α : Type)
    (annos : PyObj → Option α) (honor : PyObj → α → PyObj)
    (store : Store) (d : Dict) (k v : PyObj) (i : Nat)
    (hnull : pyEq k .null = false)
    (hvar : dictLookup d k = some (.varRef i)) :
    FlatDictCore_set_item annos honor store d k v = .ok (cellSet store i v, d) := by
  unfold FlatDictCore_set_item
  rw [if_neg (by simp [hnull]), hvar]

/-- C9 witness: the theorem applied with an annotation registered for
the key and a coercion that would store 99 — the cell still receives
the raw 5 and the mapping keeps cell number 0. -/
theorem C9_variable_cell_delegation_witness :
    pyEq (.str "a".toList) .null = false
    ∧ dictLookup [(.str "a".toList, .varRef 0)] (.str "a".toList) = some (.varRef 0)
    ∧ FlatDictCore_set_item (fun _ => some ()) (fun _ _ => .intv 99) [.intv 0]
        [(.str "a".toList, .varRef 0)] (.str "a".toList) (.intv 5)
        = .ok ([.intv 5], [(.str "a".toList, .varRef 0)]) :=
  ⟨rfl, rfl,
    C9_variable_cell_delegation Unit (fun _ => some ()) (fun _ _ => .intv 99)
      [.intv 0] [(.str "a".toList, .varRef 0)] (.str "a".toList) (.intv 5) 0 rfl rfl⟩

/-! ## Error-kind lemmas for the interpolation phases -/

theorem fmtToErr_not_ref (fe : FmtErr) : isRefErr (fmtToErr fe) = false := by
  cases fe <;> rfl

theorem subFormat_err_not_ref (store : Store) (d : Dict) (t : List Char) (e : Err) :
    subFormat store d t = .error e → isRefErr e = false := by
  intro he
  unfold subFormat at he
  cases hf : fmGo store d none (t.filter (fun c => c ≠ '$')) with
  | error fe =>
    rw [hf] at he
    injection he with he'
    rw [← he']
    exact fmtToErr_not_ref fe
  | ok out => rw [hf] at he; exact Except.noConfusion he

theorem substitute_value_err_not_ref (store : Store) (t : List Char) (d : Dict)
    (names : List (List Char)) (e : Err) :
    substitute_value store t d names = .error e → isRefErr e = false := by
  intro he
  cases names with
  | nil => exact subFormat_err_not_ref store d t e he
  | cons n rest =>
    cases rest with
    | cons m rest' => exact subFormat_err_not_ref store d t e he
    | nil =>
      by_cases hc : t.length ≥ 3 ∧ t.head? = some '$' ∧ t[1]? = some '{'
          ∧ t.getLast? = some '}'
      · have he' : (match dictLookup d (.str n) with
            | some v => (Except.ok v : Except Err PyObj)
            | none => .error (.keyNotFound (.str n))) = .error e := by
          have hstep : substitute_value store t d [n]
              = (match dictLookup d (.str n) with
                 | some v => (Except.ok v : Except Err PyObj)
                 | none => .error (.keyNotFound (.str n))) := by
            show (if t.length ≥ 3 ∧ t.head? = some '$' ∧ t[1]? = some '{'
                    ∧ t.getLast? = some '}' then
                  match dictLookup d (.str n) with
                  | some v => (Except.ok v : Except Err PyObj)
                  | none => .error (.keyNotFound (.str n))
                else subFormat store d t) = _
            rw [if_pos hc]
          rw [← hstep]
          exact he
        cases hl : dictLookup d (.str n) with
        | some v => rw [hl] at he'; exact Except.noConfusion he'
        | none =>
          rw [hl] at he'
          injection he' with h
          rw [← h]
          rfl
      · have he' : subFormat store d t = .error e := by
          have hstep : substitute_value store t d [n] = subFormat store d t := by
            show (if t.length ≥ 3 ∧ t.head? = some '$' ∧ t[1]? = some '{'
                    ∧ t.getLast? = some '}' then
                  match dictLookup d (.str n) with
                  | some v => (Except.ok v : Except Err PyObj)
                  | none => .error (.keyNotFound (.str n))
                else subFormat store d t) = _
            rw [if_neg hc]
          rw [← hstep]
          exact he
        exact subFormat_err_not_ref store d t e he'

theorem set_item_err_invalid (α : Type) (annos : PyObj → Option α) (honor : PyObj → α → PyObj)
    (store : Store) (d : Dict) (k v : PyObj) (e : Err) :
    FlatDictCore_set_item annos honor store d k v = .error e → e = .invalidKey := by
  intro he
  unfold FlatDictCore_set_item at he
  split at he
  · injection he with h; exact h.symm
  · split at he
    · exact Except.noConfusion he
    · split at he
      · exact Except.noConfusion he
      · exact Except.noConfusion he

theorem wrapLoop_err_not_ref (α : Type) (annos : PyObj → Option α) (honor : PyObj → α → PyObj)
    (keys : List (List Char)) (uv : Bool) :
    ∀ (ns : List (List Char)) (store : Store) (d : Dict) (store' : Store) (d' : Dict) (e : Err),
      wrapLoop annos honor keys uv store d ns = (store', d', some e) → isRefErr e = false := by
  intro ns
  induction ns with
  | nil =>
    intro store d store' d' e he
    have h3 : (none : Option Err) = some e := congrArg (fun t => t.2.2) he
    exact Option.noConfusion h3
  | cons n rest ih =>
    intro store d store' d' e he
    unfold wrapLoop at he
    split at he
    · exact ih _ _ _ _ _ he
    · split at he
      · have h3 := congrArg (fun t => t.2.2) he
        simp only [Option.some.injEq] at h3
        rw [← h3]
        rfl
      · split at he
        · split at he
          all_goals first
            | exact ih _ _ _ _ _ he
            | (split at he
               · rename_i e1 heq
                 have h3 := congrArg (fun t => t.2.2) he
                 simp only [Option.some.injEq] at h3
                 rw [← h3, set_item_err_invalid _ _ _ _ _ _ _ _ heq]
                 rfl
               · exact ih _ _ _ _ _ he)
        · exact ih _ _ _ _ _ he

theorem substLoop_err_not_ref (α : Type) (annos : PyObj → Option α) (honor : PyObj → α → PyObj) :
    ∀ (g : Graph) (store : Store) (d : Dict) (store' : Store) (d' : Dict) (e : Err),
      substLoop annos honor store d g = (store', d', .err e) → isRefErr e = false := by
  intro g
  induction g with
  | nil =>
    intro store d store' d' e he
    have h3 : IResult.applied = IResult.err e := congrArg (fun t => t.2.2) he
    exact IResult.noConfusion h3
  | cons entry rest ih =>
    obtain ⟨k, names⟩ := entry
    intro store d store' d' e he
    unfold substLoop at he
    split at he
    · have h3 := congrArg (fun t => t.2.2) he
      simp only [IResult.err.injEq] at h3
      rw [← h3]
      rfl
    · split at he
      · split at he
        · rename_i e1 heq
          have h3 := congrArg (fun t => t.2.2) he
          simp only [IResult.err.injEq] at h3
          rw [← h3]
          exact substitute_value_err_not_ref _ _ _ _ _ heq
        · split at he
          · rename_i e1 heq
            have h3 := congrArg (fun t => t.2.2) he
            simp only [IResult.err.injEq] at h3
            rw [← h3, set_item_err_invalid _ _ _ _ _ _ _ _ heq]
            rfl
          · exact ih _ _ _ _ _ he
      · have h3 := congrArg (fun t => t.2.2) he
        simp at h3

/-! ## Claim C10 -/

/-- C10: when interpolation fails with a SelfReference or a
CircularReference error, the store and the mapping are unchanged:
graph construction (which performs the self-reference check) and cycle
detection both run and fail before the referenced-names pass or the
substitution pass writes anything, and the writing passes can only
raise other error kinds. -/
theorem C10_reference_errors_leave_mapping_unchanged (α : Type)
    (annos : PyObj → Option α) (honor : PyObj → α → PyObj)
    (store : Store) (self : PyObj) (uv : Bool)
    (store' : Store) (self' : PyObj) (e : Err)
    (he : FlatDictCore_interpolate annos honor store self uv = (store', self', .err e))
    (href : isRefErr e = true) :
    store' = store ∧ self' = self := by
  unfold FlatDictCore_interpolate at he
  split at he
  · have h3 : IResult.notApplicable = IResult.err e := congrArg (fun t => t.2.2) he
    exact IResult.noConfusion h3
  · split at he
    · rw [Prod.mk.injEq, Prod.mk.injEq] at he
      exact ⟨he.1.symm, he.2.1.symm⟩
    · have h3 : IResult.notApplicable = IResult.err e := congrArg (fun t => t.2.2) he
      exact IResult.noConfusion h3
    · split at he
      · have h3 : IResult.applied = IResult.err e := congrArg (fun t => t.2.2) he
        exact IResult.noConfusion h3
      · split at he
        · rw [Prod.mk.injEq, Prod.mk.injEq] at he
          exact ⟨he.1.symm, he.2.1.symm⟩
        · split at he
          · split at he
            · rename_i store1 d1 e1 heq
              have h3 : IResult.err e1 = IResult.err e := congrArg (fun t => t.2.2) he
              have h4 : e1 = e := by injection h3
              rw [← h4] at href
              rw [wrapLoop_err_not_ref α annos honor _ uv _ _ _ _ _ _ heq] at href
              exact Bool.noConfusion href
            · rename_i store1 d1 heq
              rcases hsub : substLoop annos honor store1 d1 _ with ⟨store2, d2, r⟩
              rw [hsub] at he
              have h3 : r = IResult.err e := congrArg (fun t => t.2.2) he
              rw [h3] at hsub
              rw [substLoop_err_not_ref α annos honor _ _ _ _ _ _ hsub] at href
              exact Bool.noConfusion href
          · have h3 : IResult.notApplicable = IResult.err e := congrArg (fun t => t.2.2) he
            exact IResult.noConfusion h3

/-- C10 witness: the theorem applied to the circular two-key mapping,
whose interpolation fails with the CircularReference error and leaves
store and mapping untouched. -/
theorem C10_reference_errors_leave_mapping_unchanged_witness :
    FlatDictCore_interpolate annoNone honorId []
        (.map [(.str "x".toList, .str "$\x7by\x7d".toList),
               (.str "y".toList, .str "$\x7bx\x7d".toList)]) true
      = ([], .map [(.str "x".toList, .str "$\x7by\x7d".toList),
                   (.str "y".toList, .str "$\x7bx\x7d".toList)],
          .err (.circularReference ["x".toList, "y".toList, "x".toList]))
    ∧ isRefErr (.circularReference ["x".toList, "y".toList, "x".toList]) = true
    ∧ (([] : Store) = []
        ∧ PyObj.map [(.str "x".toList, .str "$\x7by\x7d".toList),
                     (.str "y".toList, .str "$\x7bx\x7d".toList)]
          = PyObj.map [(.str "x".toList, .str "$\x7by\x7d".toList),
                       (.str "y".toList, .str "$\x7bx\x7d".toList)]) :=
  ⟨rfl, rfl,
    C10_reference_errors_leave_mapping_unchanged Unit annoNone honorId []
      (.map [(.str "x".toList, .str "$\x7by\x7d".toList),
             (.str "y".toList, .str "$\x7bx\x7d".toList)]) true []
      (.map [(.str "x".toList, .str "$\x7by\x7d".toList),
             (.str "y".toList, .str "$\x7bx\x7d".toList)])
      (.circularReference ["x".toList, "y".toList, "x".toList]) rfl rfl⟩
